import Mathlib

/-!
# Shallow embedding of `notion_sync.py` (notion-job-sync)

This file embeds the parts of `src/.github/notion_sync.py` that the
verification claims are about:

* the Notion property builders (`title_prop`, `rich_text_prop`,
  `select_prop`, `date_prop`, `url_prop`, `checkbox_prop`, `relation_prop`);
* the four domain operations (`create_job_application`,
  `add_network_contact`, `add_interview`, `add_followup`) as pure payload
  builders (the HTTP submission is abstracted; its retry behaviour is
  embedded separately as `http_request_with_retries`);
* `process_thread_command`, the action-descriptor dispatcher;
* `run_sync`, the queued-thread replay pass, with the file write modelled
  as the `written` field of the returned `RunResult`;
* `http_request_with_retries`, with the transport abstracted to an
  outcome oracle per attempt number and sleeps recorded in a list;
* `prefill_from_csv`, with the CSV rows given as association lists and
  the HTTP submission abstracted to a success oracle.

External library functions are abstracted as parameters:
`datetime.fromisoformat` becomes `parseTs : String → Option Int`
(timestamps as integer seconds), `json.loads` on the content string
becomes `parseJson : String → Option CmdDict` (the replayed descriptors
are JSON objects with string values; `none` models a parse exception),
and `datetime.now` becomes the `now`/`nowIso` parameters.
-/

/-- JSON-like values, for the payloads the script builds. -/
inductive J where
  | null : J
  | str : String → J
  | bool : Bool → J
  | arr : List J → J
  | obj : List (String × J) → J

/-- Python truthiness of an optional string: `None` and `""` are falsy. -/
def truthy : Option String → Bool
  | none => false
  | some s => s ≠ ""

/-- `title_prop` from notion_sync.py. -/
def title_prop (text : String) : J :=
  .obj [("title", .arr [.obj [("text", .obj [("content", .str text)])]])]

/-- `rich_text_prop` from notion_sync.py. -/
def rich_text_prop (text : String) : J :=
  .obj [("rich_text", .arr [.obj [("text", .obj [("content", .str text)])]])]

/-- `select_prop` from notion_sync.py. -/
def select_prop (name : String) : J :=
  .obj [("select", .obj [("name", .str name)])]

/-- `date_prop` from notion_sync.py: `if iso: {"date": {"start": iso}} else {"date": None}`. -/
def date_prop (iso : Option String) : J :=
  if truthy iso then .obj [("date", .obj [("start", .str (iso.getD ""))])]
  else .obj [("date", .null)]

/-- `url_prop` from notion_sync.py: `{"url": url} if url else {}`. -/
def url_prop (url : Option String) : J :=
  if truthy url then .obj [("url", .str (url.getD ""))] else .obj []

/-- `checkbox_prop` from notion_sync.py. -/
def checkbox_prop (value : Bool) : J :=
  .obj [("checkbox", .bool value)]

/-- `relation_prop` from notion_sync.py: `{"relation":[{"id": page_id}]}` if truthy else `{}`. -/
def relation_prop (page_id : Option String) : J :=
  if truthy page_id then .obj [("relation", .arr [.obj [("id", .str (page_id.getD ""))]])]
  else .obj []

/-- Database id `DB_JOB_APPS` from the CONFIG section. -/
def DB_JOB_APPS : String := "2c356c757b0780968c5cc58ea0ef1b30"

/-- Database id `DB_NETWORKING` from the CONFIG section. -/
def DB_NETWORKING : String := "2c356c757b0780f19699c11e1f5e7db1"

/-- Database id `DB_INTERVIEWS` from the CONFIG section. -/
def DB_INTERVIEWS : String := "2c356c757b07803f91d5f1836877fc7b"

/-- Database id `DB_FOLLOWUPS` from the CONFIG section. -/
def DB_FOLLOWUPS : String := "2c456c757b07807b82aefb0c868a58d4"

/-- `create_job_application` from notion_sync.py, as the payload it submits via
`notion_post("/pages", payload)`. `now_iso` stands for `datetime.now(timezone.utc).isoformat()`. -/
def create_job_application (now_iso : String) (company : String) (role : String)
    (jd_summary : String := "") (jd_link : String := "") (location : String := "")
    (salary_range : String := "") (priority : String := "Medium") : J :=
  .obj [("parent", .obj [("database_id", .str DB_JOB_APPS)]),
        ("properties", .obj
          [("Company", title_prop company),
           ("Role", rich_text_prop role),
           ("Date Applied", date_prop (some now_iso)),
           ("Status", select_prop "Applied"),
           ("JD Summary", rich_text_prop jd_summary),
           ("JD Link", url_prop (some jd_link)),
           ("Location", rich_text_prop location),
           ("Salary Range", rich_text_prop salary_range),
           ("Priority", select_prop priority)])]

/-- `add_network_contact` from notion_sync.py, as the payload it submits. -/
def add_network_contact (name : String) (company : String := "") (role : String := "")
    (linkedin : String := "") (email : String := "") (status : String := "Cold") : J :=
  .obj [("parent", .obj [("database_id", .str DB_NETWORKING)]),
        ("properties", .obj
          [("Name", title_prop name),
           ("Company", rich_text_prop company),
           ("Role", rich_text_prop role),
           ("LinkedIn", url_prop (some linkedin)),
           ("Email", if email ≠ "" then .obj [("email", .str email)] else .obj []),
           ("Status", select_prop status),
           ("Last Contacted", date_prop none)])]

/-- `add_interview` from notion_sync.py, as the payload it submits. -/
def add_interview (application_page_id : String) (stage : String)
    (interviewer : String := "") (date_iso : Option String := none)
    (notes : String := "") (outcome : String := "Pending") : J :=
  .obj [("parent", .obj [("database_id", .str DB_INTERVIEWS)]),
        ("properties", .obj
          [("Application", relation_prop (some application_page_id)),
           ("Stage", select_prop stage),
           ("Interviewer", rich_text_prop interviewer),
           ("Date", date_prop date_iso),
           ("Notes", rich_text_prop notes),
           ("Outcome", select_prop outcome)])]

/-- `add_followup` from notion_sync.py, as the payload it submits. Note the
source guards "Related Application" and "Due Date" a second time: a falsy
value yields `{}` directly, bypassing `date_prop`'s explicit null marker. -/
def add_followup (task : String) (related_application_page_id : Option String := none)
    (due_date_iso : Option String := none) (completed : Bool := false)
    (notes : String := "") : J :=
  .obj [("parent", .obj [("database_id", .str DB_FOLLOWUPS)]),
        ("properties", .obj
          [("Task", title_prop task),
           ("Related Application",
             if truthy related_application_page_id then
               relation_prop related_application_page_id else .obj []),
           ("Due Date",
             if truthy due_date_iso then date_prop due_date_iso else .obj []),
           ("Completed", checkbox_prop completed),
           ("Notes", rich_text_prop notes)])]

/-- A parsed thread-content descriptor: a JSON object whose values are strings
(the only shape the dispatcher reads). -/
def CmdDict : Type := List (String × String)

instance : DecidableEq CmdDict := by
  unfold CmdDict
  infer_instance

instance : Membership (String × String) CmdDict := by
  unfold CmdDict
  infer_instance

/-- Python's `cmd.get(k)`: first binding of `k`, if any. -/
def cmdGet (cmd : CmdDict) (k : String) : Option String :=
  (List.find? (fun p => p.1 = k) cmd).map (fun p => p.2)

/-- Python's `cmd.get(k, d)`. -/
def cmdGetD (cmd : CmdDict) (k d : String) : String :=
  (cmdGet cmd k).getD d

/-- `process_thread_command` from notion_sync.py: dispatch on `cmd.get("action")`,
returning the payload the matching domain operation submits, or a `ValueError`
(`.error`) for an unknown action. `now_iso` feeds `create_job_application`'s
applied-date stamp. -/
def process_thread_command (now_iso : String) (cmd : CmdDict) : Except String J :=
  if cmdGet cmd "action" = some "create_application" then
    .ok (create_job_application now_iso (cmdGetD cmd "company" "")
      (cmdGetD cmd "role" "") (cmdGetD cmd "jd_summary" "") (cmdGetD cmd "jd_link" "")
      (cmdGetD cmd "location" "") (cmdGetD cmd "salary_range" "")
      (cmdGetD cmd "priority" "Medium"))
  else if cmdGet cmd "action" = some "add_followup" then
    .ok (add_followup (cmdGetD cmd "task" "Follow up")
      (cmdGet cmd "related_application_page_id") (cmdGet cmd "due_date") false
      (cmdGetD cmd "notes" ""))
  else if cmdGet cmd "action" = some "add_network_contact" then
    .ok (add_network_contact (cmdGetD cmd "name" "") (cmdGetD cmd "company" "")
      (cmdGetD cmd "role" "") (cmdGetD cmd "linkedin" "") (cmdGetD cmd "email" "")
      (cmdGetD cmd "status" "Cold"))
  else
    .error "Unknown action"

/-- Python's `str.strip()`: drop leading and trailing whitespace. -/
def pyStrip (s : String) : String :=
  ⟨(((s.toList.dropWhile Char.isWhitespace).reverse.dropWhile Char.isWhitespace).reverse)⟩

/-- Python's `s.replace("Z", "+00:00")`, the timestamp normalisation in
`run_sync`: every occurrence of the one-character pattern is replaced. -/
def pyReplaceZ (s : String) : String :=
  ⟨s.toList.foldr (fun ch acc => if ch = 'Z' then "+00:00".toList ++ acc else ch :: acc) []⟩

/-- Python's `str.lower()` (over the ASCII range the CSVs use). -/
def pyLower (s : String) : String :=
  ⟨s.toList.map Char.toLower⟩

/-- A queued thread entry, restricted to the four keys `run_sync` reads.
`none` models a missing key in the JSON object. -/
structure Thread where
  thread_id : Option String
  last_updated : Option String
  synced : Option Bool
  content : Option String
deriving DecidableEq

/-- Log calls issued while processing one entry in `run_sync`'s loop. -/
inductive LogEvent where
  | invalidTimestamp
  | eligibleInfo
  | contentParseFailed
  | noCommand
  | processFailed
deriving DecidableEq

/-- The ambient inputs of one `run_sync` pass: the current time (as integer
seconds, with the 2-hour threshold 7200), its ISO rendering, and the two
library parsers the loop calls (`datetime.fromisoformat`, `json.loads`). -/
structure SyncCtx where
  now : Int
  nowIso : String
  parseTs : String → Option Int
  parseJson : String → Option CmdDict

/-- Result of processing one thread entry: the (possibly updated) entry, the
descriptor passed to `process_thread_command` if it was invoked, whether the
entry was marked synced, and the log calls issued. -/
structure StepOut where
  thread' : Thread
  invoked : Option CmdDict
  didSync : Bool
  logs : List LogEvent
deriving DecidableEq

/-- One iteration of `run_sync`'s `for t in threads` loop. `.error ()` is the
uncaught `KeyError` raised by `t['thread_id']` in the eligibility log line,
which aborts the whole pass. -/
def stepThread (c : SyncCtx) (t : Thread) : Except Unit StepOut :=
  match t.last_updated with
  | none => .ok ⟨t, none, false, [.invalidTimestamp]⟩
  | some s =>
    match c.parseTs (pyReplaceZ s) with
    | none => .ok ⟨t, none, false, [.invalidTimestamp]⟩
    | some lu =>
      if t.synced.getD false = false ∧ c.now - lu ≥ 7200 then
        match t.thread_id with
        | none => .error ()
        | some _ =>
          if pyStrip (t.content.getD "") = "" then
            .ok ⟨t, none, false, [.eligibleInfo, .noCommand]⟩
          else
            match c.parseJson (t.content.getD "") with
            | none => .ok ⟨t, none, false, [.eligibleInfo, .contentParseFailed]⟩
            | some cmd =>
              if cmd = ([] : CmdDict) then .ok ⟨t, none, false, [.eligibleInfo, .noCommand]⟩
              else
                match process_thread_command c.nowIso cmd with
                | .ok _ => .ok ⟨{ t with synced := some true }, some cmd, true, [.eligibleInfo]⟩
                | .error _ => .ok ⟨t, some cmd, false, [.eligibleInfo, .processFailed]⟩
      else .ok ⟨t, none, false, []⟩

/-- Outcome of the whole loop: every entry processed, or aborted by the
uncaught `KeyError`; either way it carries the step results of the entries
that were processed. -/
inductive LoopOut where
  | done : List StepOut → LoopOut
  | keyErr : List StepOut → LoopOut
deriving DecidableEq

/-- Prepend one step result to a loop outcome. -/
def consStep (out : StepOut) : LoopOut → LoopOut
  | .done s => .done (out :: s)
  | .keyErr s => .keyErr (out :: s)

/-- `run_sync`'s loop over the thread list. -/
def syncThreads (c : SyncCtx) : List Thread → LoopOut
  | [] => .done []
  | t :: rest =>
    match stepThread c t with
    | .error _ => .keyErr []
    | .ok out => consStep out (syncThreads c rest)

/-- The step results carried by a loop outcome. -/
def syncSteps : LoopOut → List StepOut
  | .done s => s
  | .keyErr s => s

/-- Observable result of one `run_sync` pass: `written = some data` iff
`write_project_threads(data)` was called; `invoked` lists the descriptors
passed to `process_thread_command`, in order; `crashed` records the uncaught
`KeyError`; `final` is the in-memory list after the processed entries. -/
structure RunResult where
  written : Option (List Thread)
  invoked : List CmdDict
  crashed : Bool
  final : List Thread
deriving DecidableEq

/-- `run_sync` from notion_sync.py, over an already-loaded thread list. -/
def run_sync (c : SyncCtx) (threads : List Thread) : RunResult :=
  if threads.isEmpty then ⟨none, [], false, threads⟩
  else
    match syncThreads c threads with
    | .done steps =>
      ⟨if steps.any (fun o => o.didSync) then some (steps.map (fun o => o.thread')) else none,
       steps.filterMap (fun o => o.invoked), false, steps.map (fun o => o.thread')⟩
    | .keyErr steps =>
      ⟨none, steps.filterMap (fun o => o.invoked), true, steps.map (fun o => o.thread')⟩

/-- One attempt's outcome at the transport level: a `requests` exception, or a
response with its HTTP success flag and decoded body. -/
inductive TransportOutcome where
  | exn : TransportOutcome
  | resp : Bool → J → TransportOutcome

/-- An outcome that does not return: an exception or a non-success response. -/
def failedOutcome : TransportOutcome → Bool
  | .exn => true
  | .resp ok _ => !ok

/-- What a call to `http_request_with_retries` did: the returned decoded body
or the raised `RuntimeError` message, the number of transport attempts made,
and the `time.sleep` durations in order. -/
structure HttpResult where
  result : Except String J
  attempts : Nat
  sleeps : List ℚ

/-- The `for attempt in range(1, retries+1)` loop of `http_request_with_retries`:
`attempt` is the current attempt number, the recursion runs down the remaining
attempts. Note the source sleeps after every failed attempt, including the last
one before raising. -/
def httpGo (transport : Nat → TransportOutcome) (url : String) (retries : Nat)
    (backoff : ℚ) : Nat → Nat → HttpResult
  | _, 0 =>
    ⟨.error ("Failed HTTP request to " ++ url ++ " after " ++ toString retries ++ " attempts"),
     0, []⟩
  | attempt, rem + 1 =>
    match transport attempt with
    | .resp true body => ⟨.ok body, 1, []⟩
    | _ =>
      let r := httpGo transport url retries backoff (attempt + 1) rem
      ⟨r.result, r.attempts + 1, backoff * attempt :: r.sleeps⟩

/-- `http_request_with_retries` from notion_sync.py, with the HTTP library
abstracted as `transport : attempt number → outcome`. -/
def http_request_with_retries (transport : Nat → TransportOutcome) (url : String)
    (retries : Nat := 3) (backoff : ℚ := 1) : HttpResult :=
  httpGo transport url retries backoff 1 retries

/-- A CSV row as `csv.DictReader` yields it: column name to cell value. -/
def Row : Type := List (String × String)

/-- Python's `row.get(k, d)`. -/
def rowGet (row : Row) (k d : String) : String :=
  ((List.find? (fun p => p.1 = k) row).map (fun p => p.2)).getD d

/-- The per-row dispatch of `prefill_from_csv`: the payload submitted for this
row, or `none` when `db_type` matches no branch (the row is still counted). -/
def rowOp (now_iso : String) (db_type : String) (row : Row) : Option J :=
  if db_type = "applications" then
    some (create_job_application now_iso (rowGet row "Company" "") (rowGet row "Role" "")
      (rowGet row "JD Summary" "") (rowGet row "JD Link" "") (rowGet row "Location" "")
      (rowGet row "Salary Range" "") (rowGet row "Priority" "Medium"))
  else if db_type = "networking" then
    some (add_network_contact (rowGet row "Name" "") (rowGet row "Company" "")
      (rowGet row "Role" "") (rowGet row "LinkedIn" "") (rowGet row "Email" "")
      (rowGet row "Status" "Cold"))
  else if db_type = "interviews" then
    some (add_interview (rowGet row "Application" "") (rowGet row "Stage" "")
      (rowGet row "Interviewer" "") (some (rowGet row "Date" "")) (rowGet row "Notes" "")
      (rowGet row "Outcome" "Pending"))
  else if db_type = "followups" then
    some (add_followup (rowGet row "Task" "") (some (rowGet row "Related Application" ""))
      (some (rowGet row "Due Date" ""))
      (pyLower (rowGet row "Completed" "False") = "true") (rowGet row "Notes" ""))
  else none

/-- What one `prefill_from_csv` call did: the payloads submitted (one per row
whose branch matched), and the reported success count. -/
structure PrefillResult where
  invoked : List J
  count : Nat

/-- The per-row body of `prefill_from_csv`'s loop: `submit payload = true`
models `notion_post` returning, `false` models it raising (the exception is
caught, logged, and the row skipped without incrementing `count`). A row with
no matching branch raises nothing, so `count` is still incremented. -/
def prefillStep (now_iso : String) (db_type : String) (submit : J → Bool)
    (acc : PrefillResult) (row : Row) : PrefillResult :=
  match rowOp now_iso db_type row with
  | some payload =>
    if submit payload then ⟨acc.invoked ++ [payload], acc.count + 1⟩
    else ⟨acc.invoked ++ [payload], acc.count⟩
  | none => ⟨acc.invoked, acc.count + 1⟩

/-- `prefill_from_csv` from notion_sync.py, over already-parsed rows. -/
def prefill_from_csv (now_iso : String) (db_type : String) (submit : J → Bool)
    (rows : List Row) : PrefillResult :=
  rows.foldl (prefillStep now_iso db_type submit) ⟨[], 0⟩

/-- Exhaustive case analysis of `stepThread`: which branch of `run_sync`'s
loop body fired for an entry, with the facts that selected it. -/
inductive StepView (c : SyncCtx) (t : Thread) : Except Unit StepOut → Prop where
  | noTs : t.last_updated = none →
      StepView c t (.ok ⟨t, none, false, [.invalidTimestamp]⟩)
  | badTs (s : String) : t.last_updated = some s →
      c.parseTs (pyReplaceZ s) = none →
      StepView c t (.ok ⟨t, none, false, [.invalidTimestamp]⟩)
  | notEligible (s : String) (lu : Int) : t.last_updated = some s →
      c.parseTs (pyReplaceZ s) = some lu →
      ¬(t.synced.getD false = false ∧ c.now - lu ≥ 7200) →
      StepView c t (.ok ⟨t, none, false, []⟩)
  | keyError (s : String) (lu : Int) : t.last_updated = some s →
      c.parseTs (pyReplaceZ s) = some lu →
      t.synced.getD false = false → c.now - lu ≥ 7200 →
      t.thread_id = none →
      StepView c t (.error ())
  | emptyContent (s : String) (lu : Int) (tid : String) : t.last_updated = some s →
      c.parseTs (pyReplaceZ s) = some lu →
      t.synced.getD false = false → c.now - lu ≥ 7200 →
      t.thread_id = some tid →
      pyStrip (t.content.getD "") = "" →
      StepView c t (.ok ⟨t, none, false, [.eligibleInfo, .noCommand]⟩)
  | badJson (s : String) (lu : Int) (tid : String) : t.last_updated = some s →
      c.parseTs (pyReplaceZ s) = some lu →
      t.synced.getD false = false → c.now - lu ≥ 7200 →
      t.thread_id = some tid →
      pyStrip (t.content.getD "") ≠ "" →
      c.parseJson (t.content.getD "") = none →
      StepView c t (.ok ⟨t, none, false, [.eligibleInfo, .contentParseFailed]⟩)
  | emptyCmd (s : String) (lu : Int) (tid : String) : t.last_updated = some s →
      c.parseTs (pyReplaceZ s) = some lu →
      t.synced.getD false = false → c.now - lu ≥ 7200 →
      t.thread_id = some tid →
      pyStrip (t.content.getD "") ≠ "" →
      c.parseJson (t.content.getD "") = some ([] : CmdDict) →
      StepView c t (.ok ⟨t, none, false, [.eligibleInfo, .noCommand]⟩)
  | dispatched (s : String) (lu : Int) (tid : String) (cmd : CmdDict) (j : J) :
      t.last_updated = some s →
      c.parseTs (pyReplaceZ s) = some lu →
      t.synced.getD false = false → c.now - lu ≥ 7200 →
      t.thread_id = some tid →
      pyStrip (t.content.getD "") ≠ "" →
      c.parseJson (t.content.getD "") = some cmd →
      cmd ≠ ([] : CmdDict) →
      process_thread_command c.nowIso cmd = .ok j →
      StepView c t (.ok ⟨{ t with synced := some true }, some cmd, true, [.eligibleInfo]⟩)
  | dispatchFailed (s : String) (lu : Int) (tid : String) (cmd : CmdDict) (e : String) :
      t.last_updated = some s →
      c.parseTs (pyReplaceZ s) = some lu →
      t.synced.getD false = false → c.now - lu ≥ 7200 →
      t.thread_id = some tid →
      pyStrip (t.content.getD "") ≠ "" →
      c.parseJson (t.content.getD "") = some cmd →
      cmd ≠ ([] : CmdDict) →
      process_thread_command c.nowIso cmd = .error e →
      StepView c t (.ok ⟨t, some cmd, false, [.eligibleInfo, .processFailed]⟩)

theorem stepThread_cases (c : SyncCtx) (t : Thread) : StepView c t (stepThread c t) := by
  cases hlu : t.last_updated with
  | none =>
    have he : stepThread c t = .ok ⟨t, none, false, [.invalidTimestamp]⟩ := by
      simp only [stepThread, hlu]
    rw [he]
    exact .noTs hlu
  | some s =>
    cases hts : c.parseTs (pyReplaceZ s) with
    | none =>
      have he : stepThread c t = .ok ⟨t, none, false, [.invalidTimestamp]⟩ := by
        simp only [stepThread, hlu, hts]
      rw [he]
      exact .badTs s hlu hts
    | some lu =>
      by_cases hel : t.synced.getD false = false ∧ c.now - lu ≥ 7200
      · cases htid : t.thread_id with
        | none =>
          have he : stepThread c t = .error () := by
            simp only [stepThread, hlu, hts]
            rw [if_pos hel]
            simp only [htid]
          rw [he]
          exact .keyError s lu hlu hts hel.1 hel.2 htid
        | some tid =>
          by_cases htr : pyStrip (t.content.getD "") = ""
          · have he : stepThread c t = .ok ⟨t, none, false, [.eligibleInfo, .noCommand]⟩ := by
              simp only [stepThread, hlu, hts]
              rw [if_pos hel]
              simp only [htid]
              rw [if_pos htr]
            rw [he]
            exact .emptyContent s lu tid hlu hts hel.1 hel.2 htid htr
          · cases hpj : c.parseJson (t.content.getD "") with
            | none =>
              have he : stepThread c t =
                  .ok ⟨t, none, false, [.eligibleInfo, .contentParseFailed]⟩ := by
                simp only [stepThread, hlu, hts]
                rw [if_pos hel]
                simp only [htid]
                rw [if_neg htr]
                simp only [hpj]
              rw [he]
              exact .badJson s lu tid hlu hts hel.1 hel.2 htid htr hpj
            | some cmd =>
              by_cases hcmd : cmd = ([] : CmdDict)
              · have he : stepThread c t = .ok ⟨t, none, false, [.eligibleInfo, .noCommand]⟩ := by
                  simp only [stepThread, hlu, hts]
                  rw [if_pos hel]
                  simp only [htid]
                  rw [if_neg htr]
                  simp only [hpj]
                  rw [if_pos hcmd]
                rw [he]
                subst hcmd
                exact .emptyCmd s lu tid hlu hts hel.1 hel.2 htid htr hpj
              · cases hpc : process_thread_command c.nowIso cmd with
                | ok j =>
                  have he : stepThread c t =
                      .ok ⟨{ t with synced := some true }, some cmd, true, [.eligibleInfo]⟩ := by
                    simp only [stepThread, hlu, hts]
                    rw [if_pos hel]
                    simp only [htid]
                    rw [if_neg htr]
                    simp only [hpj]
                    rw [if_neg hcmd]
                    simp only [hpc]
                  rw [he]
                  exact .dispatched s lu tid cmd j hlu hts hel.1 hel.2 htid htr hpj hcmd hpc
                | error e =>
                  have he : stepThread c t =
                      .ok ⟨t, some cmd, false, [.eligibleInfo, .processFailed]⟩ := by
                    simp only [stepThread, hlu, hts]
                    rw [if_pos hel]
                    simp only [htid]
                    rw [if_neg htr]
                    simp only [hpj]
                    rw [if_neg hcmd]
                    simp only [hpc]
                  rw [he]
                  exact .dispatchFailed s lu tid cmd e hlu hts hel.1 hel.2 htid htr hpj hcmd hpc
      · have he : stepThread c t = .ok ⟨t, none, false, []⟩ := by
          simp only [stepThread, hlu, hts]
          rw [if_neg hel]
        rw [he]
        exact .notEligible s lu hlu hts hel

theorem syncSteps_consStep (out : StepOut) (l : LoopOut) :
    syncSteps (consStep out l) = out :: syncSteps l := by
  cases l <;> rfl

/-- Every step result of the loop comes from running `stepThread` on the
entry at the same index of the input list. -/
theorem syncThreads_stepOf (c : SyncCtx) (ts : List Thread) (i : Nat) (o : StepOut)
    (h : (syncSteps (syncThreads c ts))[i]? = some o) :
    ∃ t, ts[i]? = some t ∧ stepThread c t = .ok o := by
  induction ts generalizing i with
  | nil => simp [syncThreads, syncSteps] at h
  | cons t rest ih =>
    simp only [syncThreads] at h
    cases hst : stepThread c t with
    | error e =>
      rw [hst] at h
      simp [syncSteps] at h
    | ok out =>
      rw [hst, syncSteps_consStep] at h
      cases i with
      | zero =>
        simp only [List.getElem?_cons_zero, Option.some_inj] at h
        exact ⟨t, by simp, h ▸ hst⟩
      | succ n =>
        simp only [List.getElem?_cons_succ] at h ⊢
        exact ih n h

/-- When the loop completes without the `KeyError`, it produced one step
result per entry, each from `stepThread` on that entry. -/
theorem syncThreads_done_spec (c : SyncCtx) (ts : List Thread) (steps : List StepOut)
    (h : syncThreads c ts = .done steps) :
    steps.length = ts.length ∧
      ∀ (i : ℕ) (t : Thread), ts[i]? = some t →
        ∃ o : StepOut, steps[i]? = some o ∧ stepThread c t = .ok o := by
  induction ts generalizing steps with
  | nil =>
    simp only [syncThreads] at h
    injection h with h
    subst h
    refine ⟨rfl, ?_⟩
    intro i t ht
    simp at ht
  | cons t rest ih =>
    simp only [syncThreads] at h
    cases hst : stepThread c t with
    | error e =>
      rw [hst] at h
      simp at h
    | ok out =>
      rw [hst] at h
      cases hrest : syncThreads c rest with
      | keyErr s0 =>
        rw [hrest] at h
        simp [consStep] at h
      | done s0 =>
        rw [hrest] at h
        simp only [consStep] at h
        injection h with h
        subst h
        obtain ⟨hlen, hidx⟩ := ih s0 hrest
        refine ⟨by simp [hlen], ?_⟩
        intro i u hu
        cases i with
        | zero =>
          simp only [List.getElem?_cons_zero, Option.some_inj] at hu
          subst hu
          exact ⟨out, by simp, hst⟩
        | succ n =>
          simp only [List.getElem?_cons_succ] at hu ⊢
          exact hidx n u hu

/-- An entry cannot both read back as unsynced and carry `synced = true`. -/
theorem synced_mismatch (t : Thread) :
    ¬(t.synced.getD false = false ∧ t.synced = some true) := by
  rintro ⟨a, b⟩
  rw [b] at a
  simp at a

/-- A step marked the entry synced exactly when the entry was unsynced on
input and carries `synced = true` on output. -/
theorem stepThread_didSync_iff {c : SyncCtx} {t : Thread} {o : StepOut}
    (h : stepThread c t = .ok o) :
    o.didSync = true ↔ t.synced.getD false = false ∧ o.thread'.synced = some true := by
  have v := stepThread_cases c t
  rw [h] at v
  cases v with
  | noTs h1 => exact iff_of_false (by simp) (synced_mismatch t)
  | badTs s h1 h2 => exact iff_of_false (by simp) (synced_mismatch t)
  | notEligible s lu h1 h2 h3 => exact iff_of_false (by simp) (synced_mismatch t)
  | emptyContent s lu tid h1 h2 h3 h4 h5 h6 => exact iff_of_false (by simp) (synced_mismatch t)
  | badJson s lu tid h1 h2 h3 h4 h5 h6 h7 => exact iff_of_false (by simp) (synced_mismatch t)
  | emptyCmd s lu tid h1 h2 h3 h4 h5 h6 h7 => exact iff_of_false (by simp) (synced_mismatch t)
  | dispatched s lu tid cmd j h1 h2 h3 h4 h5 h6 h7 h8 h9 => exact iff_of_true rfl ⟨h3, rfl⟩
  | dispatchFailed s lu tid cmd e h1 h2 h3 h4 h5 h6 h7 h8 h9 =>
    exact iff_of_false (by simp) (synced_mismatch t)

/-- An entry whose `synced` flag is `true` is passed over unchanged: no
dispatch, no transition. -/
theorem stepThread_skip_of_synced {c : SyncCtx} {t : Thread} (h : t.synced = some true) :
    ∃ o, stepThread c t = .ok o ∧ o.thread' = t ∧ o.invoked = none ∧ o.didSync = false := by
  have v := stepThread_cases c t
  generalize hst : stepThread c t = r at v
  cases v with
  | noTs h1 => exact ⟨_, rfl, rfl, rfl, rfl⟩
  | badTs s h1 h2 => exact ⟨_, rfl, rfl, rfl, rfl⟩
  | notEligible s lu h1 h2 h3 => exact ⟨_, rfl, rfl, rfl, rfl⟩
  | keyError s lu h1 h2 h3 h4 h5 => rw [h] at h3; simp at h3
  | emptyContent s lu tid h1 h2 h3 h4 h5 h6 => rw [h] at h3; simp at h3
  | badJson s lu tid h1 h2 h3 h4 h5 h6 h7 => rw [h] at h3; simp at h3
  | emptyCmd s lu tid h1 h2 h3 h4 h5 h6 h7 => rw [h] at h3; simp at h3
  | dispatched s lu tid cmd j h1 h2 h3 h4 h5 h6 h7 h8 h9 => rw [h] at h3; simp at h3
  | dispatchFailed s lu tid cmd e h1 h2 h3 h4 h5 h6 h7 h8 h9 => rw [h] at h3; simp at h3

/-- The descriptors `run_sync` reports as invoked are exactly those of the
loop's step results, in order. -/
theorem run_sync_invoked_eq (c : SyncCtx) (ts : List Thread) :
    (run_sync c ts).invoked = (syncSteps (syncThreads c ts)).filterMap (fun o => o.invoked) := by
  unfold run_sync
  by_cases h : ts.isEmpty
  · rw [if_pos h]
    have hnil : ts = [] := List.isEmpty_iff.mp h
    subst hnil
    simp [syncThreads, syncSteps]
  · rw [if_neg h]
    cases hout : syncThreads c ts <;> rfl

/-- Claim C1: during one `run_sync` pass, an entry's embedded action
descriptor is handed to `process_thread_command` only if the entry's synced
flag reads back false and the current time minus its parsed last-updated
timestamp is at least 2 hours (7200 s). Consequently an entry with
`synced = true` is never dispatched regardless of age, and an entry younger
than 2 hours is never dispatched regardless of its synced value. -/
theorem run_sync_dispatch_only_if_eligible (c : SyncCtx) (ts : List Thread)
    (i : ℕ) (o : StepOut) (cmd : CmdDict)
    (hstep : (syncSteps (syncThreads c ts))[i]? = some o)
    (hinv : o.invoked = some cmd) :
    ∃ t : Thread, ts[i]? = some t ∧ t.synced.getD false = false ∧
      (∃ s lu, t.last_updated = some s ∧ c.parseTs (pyReplaceZ s) = some lu ∧
        c.now - lu ≥ 7200) ∧
      cmd ∈ (run_sync c ts).invoked := by
  obtain ⟨t, ht, hst⟩ := syncThreads_stepOf c ts i o hstep
  have hmem : cmd ∈ (run_sync c ts).invoked := by
    rw [run_sync_invoked_eq]
    exact List.mem_filterMap.mpr ⟨o, List.getElem?_mem hstep, hinv⟩
  refine ⟨t, ht, ?_⟩
  have v := stepThread_cases c t
  rw [hst] at v
  cases v with
  | noTs h1 => simp at hinv
  | badTs s h1 h2 => simp at hinv
  | notEligible s lu h1 h2 h3 => simp at hinv
  | emptyContent s lu tid h1 h2 h3 h4 h5 h6 => simp at hinv
  | badJson s lu tid h1 h2 h3 h4 h5 h6 h7 => simp at hinv
  | emptyCmd s lu tid h1 h2 h3 h4 h5 h6 h7 => simp at hinv
  | dispatched s lu tid cmd' j h1 h2 h3 h4 h5 h6 h7 h8 h9 =>
    exact ⟨h3, ⟨s, lu, h1, h2, h4⟩, hmem⟩
  | dispatchFailed s lu tid cmd' e h1 h2 h3 h4 h5 h6 h7 h8 h9 =>
    exact ⟨h3, ⟨s, lu, h1, h2, h4⟩, hmem⟩

/-- Witness for claim C1 at a concrete pass: one unsynced 2-hour-old entry,
dispatched, satisfies the eligibility conclusions. -/
theorem run_sync_dispatch_only_if_eligible_witness :
    ∃ t : Thread,
      ([⟨some "t1", some "u", some false, some "x"⟩] : List Thread)[0]? = some t ∧
      t.synced.getD false = false ∧
      (∃ s lu, t.last_updated = some s ∧
        (⟨7200, "n", fun _ => some 0, fun _ => some [("action", "add_followup")]⟩ :
          SyncCtx).parseTs (pyReplaceZ s) = some lu ∧
        (⟨7200, "n", fun _ => some 0, fun _ => some [("action", "add_followup")]⟩ :
          SyncCtx).now - lu ≥ 7200) ∧
      ([("action", "add_followup")] : CmdDict) ∈
        (run_sync ⟨7200, "n", fun _ => some 0, fun _ => some [("action", "add_followup")]⟩
          [⟨some "t1", some "u", some false, some "x"⟩]).invoked :=
  run_sync_dispatch_only_if_eligible
    ⟨7200, "n", fun _ => some 0, fun _ => some [("action", "add_followup")]⟩
    [⟨some "t1", some "u", some false, some "x"⟩] 0
    ⟨⟨some "t1", some "u", some true, some "x"⟩, some [("action", "add_followup")], true,
      [.eligibleInfo]⟩
    [("action", "add_followup")] rfl rfl

/-- A descriptor with one of the three known actions dispatches successfully. -/
theorem process_thread_command_known_ok (now_iso : String) (cmd : CmdDict)
    (hact : cmdGet cmd "action" = some "create_application" ∨
            cmdGet cmd "action" = some "add_followup" ∨
            cmdGet cmd "action" = some "add_network_contact") :
    ∃ j, process_thread_command now_iso cmd = .ok j := by
  unfold process_thread_command
  rcases hact with h | h | h <;> rw [h]
  · rw [if_pos rfl]
    exact ⟨_, rfl⟩
  · rw [if_neg (by decide), if_pos rfl]
    exact ⟨_, rfl⟩
  · rw [if_neg (by decide), if_neg (by decide), if_pos rfl]
    exact ⟨_, rfl⟩

/-- A descriptor whose action is none of the three known ones raises the
`ValueError`. -/
theorem process_thread_command_unknown (now_iso : String) (cmd : CmdDict)
    (h1 : cmdGet cmd "action" ≠ some "create_application")
    (h2 : cmdGet cmd "action" ≠ some "add_followup")
    (h3 : cmdGet cmd "action" ≠ some "add_network_contact") :
    process_thread_command now_iso cmd = .error "Unknown action" := by
  unfold process_thread_command
  rw [if_neg h1, if_neg h2, if_neg h3]

/-- The in-memory list after a pass is the per-entry results of the processed
prefix of the input. -/
theorem run_sync_final_eq (c : SyncCtx) (ts : List Thread) :
    (run_sync c ts).final = (syncSteps (syncThreads c ts)).map (fun o => o.thread') := by
  unfold run_sync
  by_cases h : ts.isEmpty
  · rw [if_pos h]
    have hnil : ts = [] := List.isEmpty_iff.mp h
    subst hnil
    simp [syncThreads, syncSteps]
  · rw [if_neg h]
    cases hout : syncThreads c ts <;> rfl

/-- The step an eligible, well-formed, known-action entry produces. -/
theorem stepThread_dispatch_eq (c : SyncCtx) (t : Thread)
    (tid s content : String) (lu : Int) (cmd : CmdDict) (j : J)
    (htid : t.thread_id = some tid)
    (hlu : t.last_updated = some s)
    (hts : c.parseTs (pyReplaceZ s) = some lu)
    (hage : c.now - lu ≥ 7200)
    (hsync : t.synced.getD false = false)
    (hcontent : t.content = some content)
    (htrim : pyStrip content ≠ "")
    (hjson : c.parseJson content = some cmd)
    (hne : cmd ≠ ([] : CmdDict))
    (hok : process_thread_command c.nowIso cmd = .ok j) :
    stepThread c t = .ok ⟨{ t with synced := some true }, some cmd, true, [.eligibleInfo]⟩ := by
  simp only [stepThread, hlu, hts]
  rw [if_pos ⟨hsync, hage⟩]
  simp only [htid, hcontent, Option.getD_some]
  rw [if_neg htrim]
  simp only [hjson]
  rw [if_neg hne]
  simp only [hok]

/-- Claim C2: a queued entry at least 2 hours old, with synced flag false, a
parseable last-updated timestamp, and a content string parsing to a non-empty
object with a known action, is dispatched exactly once by a completed pass
(its step carries exactly that one invocation) and its flag is set true; the
updated list is persisted, and a second pass over the persisted list at any
time dispatches that entry zero times. -/
theorem run_sync_dispatch_once (c : SyncCtx) (ts : List Thread)
    (steps : List StepOut) (i : ℕ) (t : Thread)
    (tid s content : String) (lu : Int) (cmd : CmdDict)
    (hdone : syncThreads c ts = .done steps)
    (ht : ts[i]? = some t)
    (htid : t.thread_id = some tid)
    (hlu : t.last_updated = some s)
    (hts : c.parseTs (pyReplaceZ s) = some lu)
    (hage : c.now - lu ≥ 7200)
    (hsync : t.synced.getD false = false)
    (hcontent : t.content = some content)
    (htrim : pyStrip content ≠ "")
    (hjson : c.parseJson content = some cmd)
    (hne : cmd ≠ ([] : CmdDict))
    (hact : cmdGet cmd "action" = some "create_application" ∨
            cmdGet cmd "action" = some "add_followup" ∨
            cmdGet cmd "action" = some "add_network_contact") :
    steps[i]? =
        some (⟨{ t with synced := some true }, some cmd, true, [.eligibleInfo]⟩ : StepOut) ∧
      (run_sync c ts).written = some ((run_sync c ts).final) ∧
      ∀ (c₂ : SyncCtx) (o₂ : StepOut),
        (syncSteps (syncThreads c₂ ((run_sync c ts).final)))[i]? = some o₂ →
        o₂.invoked = none ∧ o₂.didSync = false := by
  obtain ⟨j, hok⟩ := process_thread_command_known_ok c.nowIso cmd hact
  have hstep := stepThread_dispatch_eq c t tid s content lu cmd j htid hlu hts hage hsync
    hcontent htrim hjson hne hok
  obtain ⟨hlen, hidx⟩ := syncThreads_done_spec c ts steps hdone
  obtain ⟨o, ho, ho2⟩ := hidx i t ht
  rw [hstep] at ho2
  injection ho2 with ho2
  subst ho2
  have hmem := List.getElem?_mem ho
  have hany : steps.any (fun o => o.didSync) = true := List.any_eq_true.mpr ⟨_, hmem, rfl⟩
  have hts_ne : ts.isEmpty = false := by
    cases ts with
    | nil => simp at ht
    | cons a l => rfl
  have hfin : (run_sync c ts).final = steps.map (fun o => o.thread') := by
    rw [run_sync_final_eq, hdone]
    rfl
  have hwrit : (run_sync c ts).written = some (steps.map (fun o => o.thread')) := by
    unfold run_sync
    rw [if_neg (by simp [hts_ne]), hdone]
    simp [hany]
  refine ⟨ho, ?_, ?_⟩
  · rw [hwrit, hfin]
  · intro c₂ o₂ h₂
    rw [hfin] at h₂
    obtain ⟨t₂, ht₂, hst₂⟩ := syncThreads_stepOf c₂ _ i o₂ h₂
    have hmap : (steps.map (fun o => o.thread'))[i]? = some ({ t with synced := some true }) := by
      rw [List.getElem?_map, ho]
      rfl
    rw [hmap] at ht₂
    injection ht₂ with ht₂
    subst ht₂
    obtain ⟨o', ho', hth', hinv', hds'⟩ := stepThread_skip_of_synced (c := c₂)
      (t := { t with synced := some true }) rfl
    rw [hst₂] at ho'
    injection ho' with ho'
    subst ho'
    exact ⟨hinv', hds'⟩

/-- Witness for claim C2 at a concrete pass: the single eligible entry's step
records one dispatch and the synced flip, the list is persisted, and the
second pass does not dispatch it. -/
theorem run_sync_dispatch_once_witness :
    ([⟨⟨some "t1", some "u", some true, some "x"⟩, some [("action", "add_followup")], true,
        [LogEvent.eligibleInfo]⟩] : List StepOut)[0]? =
      some (⟨⟨some "t1", some "u", some true, some "x"⟩, some [("action", "add_followup")],
        true, [LogEvent.eligibleInfo]⟩ : StepOut) ∧
    (run_sync ⟨7200, "n", fun _ => some 0, fun _ => some [("action", "add_followup")]⟩
        [⟨some "t1", some "u", some false, some "x"⟩]).written =
      some ((run_sync ⟨7200, "n", fun _ => some 0, fun _ => some [("action", "add_followup")]⟩
        [⟨some "t1", some "u", some false, some "x"⟩]).final) ∧
    ((⟨⟨some "t1", some "u", some true, some "x"⟩, none, false, []⟩ : StepOut).invoked = none ∧
      (⟨⟨some "t1", some "u", some true, some "x"⟩, none, false, []⟩ : StepOut).didSync = false) := by
  have h := run_sync_dispatch_once
    ⟨7200, "n", fun _ => some 0, fun _ => some [("action", "add_followup")]⟩
    [⟨some "t1", some "u", some false, some "x"⟩]
    [⟨⟨some "t1", some "u", some true, some "x"⟩, some [("action", "add_followup")], true,
      [LogEvent.eligibleInfo]⟩]
    0 ⟨some "t1", some "u", some false, some "x"⟩ "t1" "u" "x" 0 [("action", "add_followup")]
    rfl rfl rfl rfl rfl (by decide) rfl rfl (by decide) rfl (by decide)
    (Or.inr (Or.inl rfl))
  exact ⟨h.1, h.2.1,
    h.2.2 ⟨7200, "n", fun _ => some 0, fun _ => some [("action", "add_followup")]⟩
      ⟨⟨some "t1", some "u", some true, some "x"⟩, none, false, []⟩ rfl⟩

/-- Claim C3: a completed `run_sync` pass calls `write_project_threads` if and
only if at least one entry transitioned from unsynced to `synced = true`
during the pass; with no transition (for instance when the only entry's
content is malformed JSON) the queue file is left untouched. -/
theorem run_sync_write_iff_transition (c : SyncCtx) (ts : List Thread)
    (steps : List StepOut) (hdone : syncThreads c ts = .done steps) :
    (run_sync c ts).written ≠ none ↔
      ∃ (i : ℕ) (t : Thread) (o : StepOut), ts[i]? = some t ∧ steps[i]? = some o ∧
        t.synced.getD false = false ∧ o.thread'.synced = some true := by
  obtain ⟨hlen, hidx⟩ := syncThreads_done_spec c ts steps hdone
  by_cases hemp : ts.isEmpty = true
  · have hnil : ts = [] := List.isEmpty_iff.mp hemp
    subst hnil
    constructor
    · intro h
      exact absurd rfl h
    · rintro ⟨i, t, o, hti, _, _, _⟩
      simp at hti
  · have hwrit : (run_sync c ts).written =
        if steps.any (fun o => o.didSync) then some (steps.map (fun o => o.thread')) else none := by
      unfold run_sync
      rw [if_neg hemp, hdone]
    rw [hwrit]
    constructor
    · intro h
      have hany : steps.any (fun o => o.didSync) = true := by
        by_contra hno
        rw [if_neg (by simp [hno])] at h
        exact h rfl
      obtain ⟨o, hmem, hds⟩ := List.any_eq_true.mp hany
      obtain ⟨i, hio⟩ := List.mem_iff_getElem?.mp hmem
      have hilt : i < ts.length := by
        have : i < steps.length := by
          by_contra hge
          rw [List.getElem?_eq_none (by omega)] at hio
          cases hio
        omega
      have hti : ts[i]? = some ts[i] := List.getElem?_eq_getElem hilt
      obtain ⟨o', ho', hstep⟩ := hidx i _ hti
      rw [hio] at ho'
      injection ho' with ho'
      subst ho'
      have := (stepThread_didSync_iff hstep).mp hds
      exact ⟨i, ts[i], o, hti, hio, this.1, this.2⟩
    · rintro ⟨i, t, o, hti, hio, hsy, hsy'⟩
      obtain ⟨o', ho', hstep⟩ := hidx i t hti
      rw [hio] at ho'
      injection ho' with ho'
      subst ho'
      have hds : o.didSync = true := (stepThread_didSync_iff hstep).mpr ⟨hsy, hsy'⟩
      have hany : steps.any (fun o => o.didSync) = true :=
        List.any_eq_true.mpr ⟨o, List.getElem?_mem hio, hds⟩
      rw [if_pos hany]
      simp

/-- Witness for claim C3: a pass over one eligible entry writes the file, via
the forward instantiation of the equivalence. -/
theorem run_sync_write_iff_transition_witness :
    (run_sync ⟨7200, "n", fun _ => some 0, fun _ => some [("action", "add_network_contact")]⟩
      [⟨some "t1", some "u", none, some "x"⟩]).written ≠ none := by
  have h := run_sync_write_iff_transition
    ⟨7200, "n", fun _ => some 0, fun _ => some [("action", "add_network_contact")]⟩
    [⟨some "t1", some "u", none, some "x"⟩]
    [⟨⟨some "t1", some "u", some true, some "x"⟩, some [("action", "add_network_contact")],
      true, [LogEvent.eligibleInfo]⟩] rfl
  exact h.mpr ⟨0, ⟨some "t1", some "u", none, some "x"⟩,
    ⟨⟨some "t1", some "u", some true, some "x"⟩, some [("action", "add_network_contact")],
      true, [LogEvent.eligibleInfo]⟩, rfl, rfl, rfl, rfl⟩

/-- Claim C4: an entry whose last-updated timestamp does not parse, whose
content does not parse as JSON, or whose parsed action is unknown, is logged,
left unchanged (so never marked synced in that pass), and the loop continues
with the remaining entries of the list. -/
theorem run_sync_malformed_entry_skipped (c : SyncCtx) (t : Thread)
    (h : (t.last_updated = none ∨
           ∃ s, t.last_updated = some s ∧ c.parseTs (pyReplaceZ s) = none) ∨
         (∃ s lu tid, t.last_updated = some s ∧ c.parseTs (pyReplaceZ s) = some lu ∧
           t.synced.getD false = false ∧ c.now - lu ≥ 7200 ∧ t.thread_id = some tid ∧
           pyStrip (t.content.getD "") ≠ "" ∧ c.parseJson (t.content.getD "") = none) ∨
         (∃ s lu tid cmd, t.last_updated = some s ∧ c.parseTs (pyReplaceZ s) = some lu ∧
           t.synced.getD false = false ∧ c.now - lu ≥ 7200 ∧ t.thread_id = some tid ∧
           pyStrip (t.content.getD "") ≠ "" ∧ c.parseJson (t.content.getD "") = some cmd ∧
           cmd ≠ ([] : CmdDict) ∧
           cmdGet cmd "action" ≠ some "create_application" ∧
           cmdGet cmd "action" ≠ some "add_followup" ∧
           cmdGet cmd "action" ≠ some "add_network_contact")) :
    ∃ o : StepOut, stepThread c t = .ok o ∧ o.thread' = t ∧ o.didSync = false ∧
      (LogEvent.invalidTimestamp ∈ o.logs ∨ LogEvent.contentParseFailed ∈ o.logs ∨
        LogEvent.processFailed ∈ o.logs) ∧
      ∀ rest : List Thread, syncThreads c (t :: rest) = consStep o (syncThreads c rest) := by
  rcases h with (hA | ⟨s, hs, hts⟩) | ⟨s, lu, tid, hs, hts, hsy, hage, htid, htrim, hpj⟩ |
    ⟨s, lu, tid, cmd, hs, hts, hsy, hage, htid, htrim, hpj, hne, h1, h2, h3⟩
  · have heq : stepThread c t = .ok ⟨t, none, false, [.invalidTimestamp]⟩ := by
      simp only [stepThread, hA]
    refine ⟨_, heq, rfl, rfl, by simp, ?_⟩
    intro rest
    simp only [syncThreads, heq]
  · have heq : stepThread c t = .ok ⟨t, none, false, [.invalidTimestamp]⟩ := by
      simp only [stepThread, hs, hts]
    refine ⟨_, heq, rfl, rfl, by simp, ?_⟩
    intro rest
    simp only [syncThreads, heq]
  · have heq : stepThread c t = .ok ⟨t, none, false, [.eligibleInfo, .contentParseFailed]⟩ := by
      simp only [stepThread, hs, hts]
      rw [if_pos ⟨hsy, hage⟩]
      simp only [htid]
      rw [if_neg htrim]
      simp only [hpj]
    refine ⟨_, heq, rfl, rfl, by simp, ?_⟩
    intro rest
    simp only [syncThreads, heq]
  · have herr := process_thread_command_unknown c.nowIso cmd h1 h2 h3
    have heq : stepThread c t = .ok ⟨t, some cmd, false, [.eligibleInfo, .processFailed]⟩ := by
      simp only [stepThread, hs, hts]
      rw [if_pos ⟨hsy, hage⟩]
      simp only [htid]
      rw [if_neg htrim]
      simp only [hpj]
      rw [if_neg hne]
      simp only [herr]
    refine ⟨_, heq, rfl, rfl, by simp, ?_⟩
    intro rest
    simp only [syncThreads, heq]

/-- Witness for claim C4: an eligible entry carrying an unknown action is
invoked-but-failed, stays unchanged, logs the failure, and the loop goes on
to a following entry. -/
theorem run_sync_malformed_entry_skipped_witness :
    ∃ o : StepOut,
      stepThread ⟨7200, "n", fun _ => some 0, fun _ => some [("action", "frobnicate")]⟩
          ⟨some "t1", some "u", some false, some "x"⟩ = .ok o ∧
      o.thread' = ⟨some "t1", some "u", some false, some "x"⟩ ∧ o.didSync = false ∧
      (LogEvent.invalidTimestamp ∈ o.logs ∨ LogEvent.contentParseFailed ∈ o.logs ∨
        LogEvent.processFailed ∈ o.logs) ∧
      syncThreads ⟨7200, "n", fun _ => some 0, fun _ => some [("action", "frobnicate")]⟩
          [⟨some "t1", some "u", some false, some "x"⟩, ⟨some "t2", none, none, none⟩] =
        consStep o (syncThreads ⟨7200, "n", fun _ => some 0, fun _ => some [("action", "frobnicate")]⟩
          [⟨some "t2", none, none, none⟩]) := by
  obtain ⟨o, e1, e2, e3, e4, e5⟩ := run_sync_malformed_entry_skipped
    ⟨7200, "n", fun _ => some 0, fun _ => some [("action", "frobnicate")]⟩
    ⟨some "t1", some "u", some false, some "x"⟩
    (Or.inr (Or.inr ⟨"u", 0, "t1", [("action", "frobnicate")], rfl, rfl, rfl, by decide, rfl,
      by decide, rfl, by decide, by decide, by decide, by decide⟩))
  exact ⟨o, e1, e2, e3, e4, e5 [⟨some "t2", none, none, none⟩]⟩

/-- An entry that passes the eligibility check but has no `thread_id` key
raises the uncaught `KeyError` in the logging line. -/
theorem stepThread_keyerror (c : SyncCtx) (bad : Thread) (s : String) (lu : Int)
    (hs : bad.last_updated = some s)
    (hts : c.parseTs (pyReplaceZ s) = some lu)
    (hsy : bad.synced.getD false = false)
    (hage : c.now - lu ≥ 7200)
    (htid : bad.thread_id = none) :
    stepThread c bad = .error () := by
  simp only [stepThread, hs, hts]
  rw [if_pos ⟨hsy, hage⟩]
  simp only [htid]

/-- If the entries before a `KeyError`-raising entry all step normally, the
loop aborts at that entry with exactly the prefix's step results, whatever
follows it. -/
theorem syncThreads_keyErr_append (c : SyncCtx) (bad : Thread)
    (hbad : stepThread c bad = .error ()) :
    ∀ pre : List Thread, (∀ t ∈ pre, ∃ o, stepThread c t = .ok o) →
      ∃ steps : List StepOut,
        (∀ suf : List Thread, syncThreads c (pre ++ bad :: suf) = .keyErr steps) ∧
        steps.length = pre.length := by
  intro pre
  induction pre with
  | nil =>
    intro _
    refine ⟨[], ?_, rfl⟩
    intro suf
    simp only [List.nil_append, syncThreads, hbad]
  | cons a l ih =>
    intro hpre
    obtain ⟨oa, hoa⟩ := hpre a (by simp)
    obtain ⟨steps, hsteps, hlen⟩ := ih (fun t ht => hpre t (by simp [ht]))
    refine ⟨oa :: steps, ?_, by simp [hlen]⟩
    intro suf
    simp only [List.cons_append, syncThreads, hoa, List.append_eq, hsteps suf, consStep]

/-- Claim C9: if an entry that passes the eligibility check lacks the
`thread_id` key, the pass raises an uncaught `KeyError` there: the queue file
is not rewritten (so entries dispatched earlier in the pass stay unsynced on
disk), only the entries before it were inspected, and the entries after it
never influence the outcome. -/
theorem run_sync_keyerror_aborts (c : SyncCtx) (pre suf : List Thread) (bad : Thread)
    (s : String) (lu : Int)
    (hpre : ∀ t ∈ pre, ∃ o, stepThread c t = .ok o)
    (hs : bad.last_updated = some s)
    (hts : c.parseTs (pyReplaceZ s) = some lu)
    (hsy : bad.synced.getD false = false)
    (hage : c.now - lu ≥ 7200)
    (htid : bad.thread_id = none) :
    (run_sync c (pre ++ bad :: suf)).written = none ∧
    (run_sync c (pre ++ bad :: suf)).crashed = true ∧
    (syncSteps (syncThreads c (pre ++ bad :: suf))).length = pre.length ∧
    ∀ suf' : List Thread,
      syncThreads c (pre ++ bad :: suf') = syncThreads c (pre ++ bad :: suf) := by
  have hbad := stepThread_keyerror c bad s lu hs hts hsy hage htid
  obtain ⟨steps, hsteps, hlen⟩ := syncThreads_keyErr_append c bad hbad pre hpre
  have hne : (pre ++ bad :: suf).isEmpty = false := by
    cases pre <;> rfl
  refine ⟨?_, ?_, ?_, ?_⟩
  · unfold run_sync
    rw [if_neg (by simp [hne]), hsteps suf]
  · unfold run_sync
    rw [if_neg (by simp [hne]), hsteps suf]
  · rw [hsteps suf]
    exact hlen
  · intro suf'
    rw [hsteps suf', hsteps suf]

/-- Witness for claim C9: a pass whose second entry is eligible but lacks
`thread_id` crashes after inspecting only the first entry and writes nothing,
with a third entry never reached. -/
theorem run_sync_keyerror_aborts_witness :
    (run_sync ⟨7200, "n", fun _ => some 0, fun _ => some [("action", "add_followup")]⟩
        ([⟨some "t0", none, none, none⟩] ++ ⟨none, some "u", some false, some "x"⟩ ::
          [⟨some "t3", some "u", some false, some "x"⟩])).written = none ∧
    (run_sync ⟨7200, "n", fun _ => some 0, fun _ => some [("action", "add_followup")]⟩
        ([⟨some "t0", none, none, none⟩] ++ ⟨none, some "u", some false, some "x"⟩ ::
          [⟨some "t3", some "u", some false, some "x"⟩])).crashed = true ∧
    (syncSteps (syncThreads ⟨7200, "n", fun _ => some 0, fun _ => some [("action", "add_followup")]⟩
        ([⟨some "t0", none, none, none⟩] ++ ⟨none, some "u", some false, some "x"⟩ ::
          [⟨some "t3", some "u", some false, some "x"⟩]))).length =
      ([⟨some "t0", none, none, none⟩] : List Thread).length ∧
    ∀ suf' : List Thread,
      syncThreads ⟨7200, "n", fun _ => some 0, fun _ => some [("action", "add_followup")]⟩
          ([⟨some "t0", none, none, none⟩] ++ ⟨none, some "u", some false, some "x"⟩ :: suf') =
        syncThreads ⟨7200, "n", fun _ => some 0, fun _ => some [("action", "add_followup")]⟩
          ([⟨some "t0", none, none, none⟩] ++ ⟨none, some "u", some false, some "x"⟩ ::
            [⟨some "t3", some "u", some false, some "x"⟩]) :=
  run_sync_keyerror_aborts
    ⟨7200, "n", fun _ => some 0, fun _ => some [("action", "add_followup")]⟩
    [⟨some "t0", none, none, none⟩] [⟨some "t3", some "u", some false, some "x"⟩]
    ⟨none, some "u", some false, some "x"⟩ "u" 0
    (by
      intro t ht
      simp only [List.mem_singleton] at ht
      subst ht
      exact ⟨⟨⟨some "t0", none, none, none⟩, none, false, [.invalidTimestamp]⟩, rfl⟩)
    rfl rfl rfl (by decide) rfl

/-- Claim C5: with a transport failing on every attempt (exception or
non-success response), `http_request_with_retries` makes exactly 3 attempts,
sleeps `backoff × attempt_number` after each failed attempt, and raises the
terminal error naming the endpoint URL and the attempt count; and when the
first successful attempt is attempt `k`, it returns that decoded response
after exactly `k` attempts. -/
theorem http_request_with_retries_spec (transport : ℕ → TransportOutcome)
    (url : String) (backoff : ℚ) :
    ((∀ n : ℕ, failedOutcome (transport n) = true) →
      http_request_with_retries transport url 3 backoff =
        ⟨.error ("Failed HTTP request to " ++ url ++ " after " ++ toString 3 ++ " attempts"),
         3, [backoff * 1, backoff * 2, backoff * 3]⟩) ∧
    (∀ (k : ℕ) (body : J), 1 ≤ k → k ≤ 3 →
      (∀ n : ℕ, 1 ≤ n → n < k → failedOutcome (transport n) = true) →
      transport k = .resp true body →
      (http_request_with_retries transport url 3 backoff).result = .ok body ∧
      (http_request_with_retries transport url 3 backoff).attempts = k) := by
  constructor
  · intro hfail
    have h1 := hfail 1
    have h2 := hfail (1 + 1)
    have h3 := hfail (1 + 1 + 1)
    simp only [http_request_with_retries, httpGo]
    cases hta1 : transport 1 with
    | resp ok1 b1 =>
      cases ok1 with
      | true => rw [hta1] at h1; simp [failedOutcome] at h1
      | false =>
        cases hta2 : transport (1 + 1) with
        | resp ok2 b2 =>
          cases ok2 with
          | true => rw [hta2] at h2; simp [failedOutcome] at h2
          | false =>
            cases hta3 : transport (1 + 1 + 1) with
            | resp ok3 b3 =>
              cases ok3 with
              | true => rw [hta3] at h3; simp [failedOutcome] at h3
              | false => simp only [HttpResult.mk.injEq]; norm_num
            | exn => simp only [HttpResult.mk.injEq]; norm_num
        | exn =>
          cases hta3 : transport (1 + 1 + 1) with
          | resp ok3 b3 =>
            cases ok3 with
            | true => rw [hta3] at h3; simp [failedOutcome] at h3
            | false => simp only [HttpResult.mk.injEq]; norm_num
          | exn => simp only [HttpResult.mk.injEq]; norm_num
    | exn =>
      cases hta2 : transport (1 + 1) with
      | resp ok2 b2 =>
        cases ok2 with
        | true => rw [hta2] at h2; simp [failedOutcome] at h2
        | false =>
          cases hta3 : transport (1 + 1 + 1) with
          | resp ok3 b3 =>
            cases ok3 with
            | true => rw [hta3] at h3; simp [failedOutcome] at h3
            | false => simp only [HttpResult.mk.injEq]; norm_num
          | exn => simp only [HttpResult.mk.injEq]; norm_num
      | exn =>
        cases hta3 : transport (1 + 1 + 1) with
        | resp ok3 b3 =>
          cases ok3 with
          | true => rw [hta3] at h3; simp [failedOutcome] at h3
          | false => simp only [HttpResult.mk.injEq]; norm_num
        | exn => simp only [HttpResult.mk.injEq]; norm_num
  · intro k body hk1 hk3 hprev hsucc
    interval_cases k
    · refine ⟨?_, ?_⟩ <;> simp only [http_request_with_retries, httpGo, hsucc]
    · have h1 : failedOutcome (transport 1) = true := hprev 1 (le_refl 1) (by norm_num)
      simp only [http_request_with_retries, httpGo]
      rw [show (1 + 1 : ℕ) = 2 from rfl, hsucc]
      cases hta1 : transport 1 with
      | resp ok1 b1 =>
        cases ok1 with
        | true => rw [hta1] at h1; simp [failedOutcome] at h1
        | false => exact ⟨rfl, rfl⟩
      | exn => exact ⟨rfl, rfl⟩
    · have h1 : failedOutcome (transport 1) = true := hprev 1 (le_refl 1) (by norm_num)
      have h2 : failedOutcome (transport (1 + 1)) = true := hprev 2 (by norm_num) (by norm_num)
      simp only [http_request_with_retries, httpGo]
      rw [show (1 + 1 + 1 : ℕ) = 3 from rfl, hsucc]
      cases hta1 : transport 1 with
      | resp ok1 b1 =>
        cases ok1 with
        | true => rw [hta1] at h1; simp [failedOutcome] at h1
        | false =>
          cases hta2 : transport (1 + 1) with
          | resp ok2 b2 =>
            cases ok2 with
            | true => rw [hta2] at h2; simp [failedOutcome] at h2
            | false => exact ⟨rfl, rfl⟩
          | exn => exact ⟨rfl, rfl⟩
      | exn =>
        cases hta2 : transport (1 + 1) with
        | resp ok2 b2 =>
          cases ok2 with
          | true => rw [hta2] at h2; simp [failedOutcome] at h2
          | false => exact ⟨rfl, rfl⟩
        | exn => exact ⟨rfl, rfl⟩

/-- Witness for claim C5: an always-raising transport exhausts 3 attempts
with sleeps 1, 2, 3 and the terminal message; a first-attempt success returns
its body after one attempt. -/
theorem http_request_with_retries_spec_witness :
    http_request_with_retries (fun _ => .exn) "https://api.notion.com/v1/pages" 3 1 =
      ⟨.error ("Failed HTTP request to " ++ "https://api.notion.com/v1/pages" ++ " after " ++
         toString 3 ++ " attempts"), 3, [1 * 1, 1 * 2, 1 * 3]⟩ ∧
    ((http_request_with_retries (fun _ => .resp true .null)
        "https://api.notion.com/v1/pages" 3 1).result = .ok .null ∧
      (http_request_with_retries (fun _ => .resp true .null)
        "https://api.notion.com/v1/pages" 3 1).attempts = 1) := by
  constructor
  · exact (http_request_with_retries_spec (fun _ => .exn)
      "https://api.notion.com/v1/pages" 1).1 (fun n => rfl)
  · exact (http_request_with_retries_spec (fun _ => .resp true .null)
      "https://api.notion.com/v1/pages" 1).2 1 .null (le_refl 1) (by norm_num)
      (by
        intro n hn1 hn2
        exact absurd (lt_of_le_of_lt hn1 hn2) (lt_irrefl 1)) rfl

/-- Counterexample to claim C6 as stated: `url_prop` (and `relation_prop`)
return the empty mapping — the property is omitted, not marked — for an
absent value. -/
theorem url_prop_absent_returns_empty_mapping :
    url_prop none = J.obj [] ∧ relation_prop none = J.obj [] :=
  ⟨rfl, rfl⟩

/-- Claim C6 as amended: only the date builder produces an explicit "no
value" marker (`{"date": null}`) for an absent or empty value; the URL and
relation builders return the empty mapping, omitting the property, for an
absent or empty value. (Title, rich-text, select and checkbox builders take
required values and have no absent case.) -/
theorem builders_absent_value_behavior :
    date_prop none = J.obj [("date", J.null)] ∧
    date_prop (some "") = J.obj [("date", J.null)] ∧
    url_prop none = J.obj [] ∧
    url_prop (some "") = J.obj [] ∧
    relation_prop none = J.obj [] ∧
    relation_prop (some "") = J.obj [] :=
  ⟨rfl, rfl, rfl, rfl, rfl, rfl⟩

/-- The parent collection reference of a payload: the value of the first
field of the first field — `payload["parent"]["database_id"]` for every
payload the domain operations build. -/
def parentDb : J → Option String
  | .obj ((_, .obj ((_, .str db) :: _)) :: _) => some db
  | _ => none

/-- Claim C7: for all field inputs, each domain operation's payload carries
the fixed collection identifier designated for its record kind, and the four
identifiers are pairwise distinct. -/
theorem domain_ops_parent_database_ids
    (now_iso company role jd_summary jd_link location salary_range priority : String)
    (name ncompany nrole linkedin email status : String)
    (application_page_id stage interviewer notes outcome : String)
    (date_iso : Option String)
    (task fnotes : String) (related : Option String) (due : Option String)
    (completed : Bool) :
    parentDb (create_job_application now_iso company role jd_summary jd_link location
      salary_range priority) = some DB_JOB_APPS ∧
    parentDb (add_network_contact name ncompany nrole linkedin email status) =
      some DB_NETWORKING ∧
    parentDb (add_interview application_page_id stage interviewer date_iso notes outcome) =
      some DB_INTERVIEWS ∧
    parentDb (add_followup task related due completed fnotes) = some DB_FOLLOWUPS ∧
    DB_JOB_APPS ≠ DB_NETWORKING ∧ DB_JOB_APPS ≠ DB_INTERVIEWS ∧
    DB_JOB_APPS ≠ DB_FOLLOWUPS ∧ DB_NETWORKING ≠ DB_INTERVIEWS ∧
    DB_NETWORKING ≠ DB_FOLLOWUPS ∧ DB_INTERVIEWS ≠ DB_FOLLOWUPS :=
  ⟨rfl, rfl, rfl, rfl, by decide, by decide, by decide, by decide, by decide, by decide⟩

/-- The "Completed" property of a follow-up payload (its fourth property). -/
def followupCompleted : J → Option J
  | .obj (_ :: (_, .obj (_ :: _ :: _ :: (_, c) :: _)) :: _) => some c
  | _ => none

/-- The "Task" property of a follow-up payload (its first property). -/
def followupTask : J → Option J
  | .obj (_ :: (_, .obj ((_, c) :: _)) :: _) => some c
  | _ => none

/-- Claim C10: replaying an `add_followup` descriptor always passes
`completed = False` — any "completed" field in the descriptor is ignored, so
the created record's Completed checkbox is false — and a missing "task"
field is replaced by the literal title "Follow up". -/
theorem process_followup_completed_false (now_iso : String) (cmd : CmdDict)
    (hact : cmdGet cmd "action" = some "add_followup") :
    ∃ j : J, process_thread_command now_iso cmd = .ok j ∧
      j = add_followup (cmdGetD cmd "task" "Follow up")
        (cmdGet cmd "related_application_page_id") (cmdGet cmd "due_date") false
        (cmdGetD cmd "notes" "") ∧
      followupCompleted j = some (checkbox_prop false) ∧
      (cmdGet cmd "task" = none → followupTask j = some (title_prop "Follow up")) := by
  have heq : process_thread_command now_iso cmd =
      .ok (add_followup (cmdGetD cmd "task" "Follow up")
        (cmdGet cmd "related_application_page_id") (cmdGet cmd "due_date") false
        (cmdGetD cmd "notes" "")) := by
    unfold process_thread_command
    rw [hact]
    rw [if_neg (by decide), if_pos rfl]
  refine ⟨_, heq, rfl, rfl, ?_⟩
  intro hnone
  simp only [followupTask, add_followup, cmdGetD, hnone, Option.getD_none]

/-- Witness for claim C10: a descriptor with `completed: "true"` and no task
field still yields `Completed = false` and the default title. -/
theorem process_followup_completed_false_witness :
    ∃ j : J,
      process_thread_command "n" [("action", "add_followup"), ("completed", "true")] = .ok j ∧
      j = add_followup "Follow up" none none false "" ∧
      followupCompleted j = some (checkbox_prop false) ∧
      followupTask j = some (title_prop "Follow up") := by
  obtain ⟨j, h1, h2, h3, h4⟩ := process_followup_completed_false "n"
    [("action", "add_followup"), ("completed", "true")] rfl
  refine ⟨j, h1, ?_, h3, h4 rfl⟩
  rw [h2]
  rfl

/-- A row completes without raising: its submission succeeded, or no branch
matched (in which case the source increments the counter with no call). -/
def rowSucceeds (now_iso : String) (db_type : String) (submit : J → Bool) (r : Row) : Bool :=
  match rowOp now_iso db_type r with
  | some p => submit p
  | none => true

theorem prefill_foldl_spec (now_iso db_type : String) (submit : J → Bool) :
    ∀ (rows : List Row) (acc : PrefillResult),
      (rows.foldl (prefillStep now_iso db_type submit) acc).invoked =
        acc.invoked ++ rows.filterMap (rowOp now_iso db_type) ∧
      (rows.foldl (prefillStep now_iso db_type submit) acc).count =
        acc.count + (rows.filter (rowSucceeds now_iso db_type submit)).length := by
  intro rows
  induction rows with
  | nil =>
    intro acc
    simp
  | cons r rest ih =>
    intro acc
    simp only [List.foldl_cons]
    obtain ⟨ih1, ih2⟩ := ih (prefillStep now_iso db_type submit acc r)
    constructor
    · rw [ih1]
      unfold prefillStep
      cases hop : rowOp now_iso db_type r with
      | some p => cases hsub : submit p <;> simp [hop, hsub]
      | none => simp [hop]
    · rw [ih2]
      unfold prefillStep rowSucceeds
      cases hop : rowOp now_iso db_type r with
      | some p =>
        cases hsub : submit p <;> simp [hop, hsub, List.filter_cons] <;> omega
      | none => simp [hop, List.filter_cons]; omega

/-- For a recognised record kind the per-row dispatch always produces a
payload. -/
theorem rowOp_isSome_of_valid (now_iso db_type : String) (r : Row)
    (hdb : db_type = "applications" ∨ db_type = "networking" ∨ db_type = "interviews" ∨
      db_type = "followups") :
    (rowOp now_iso db_type r).isSome := by
  rcases hdb with h | h | h | h <;> subst h <;> rfl

theorem filterMap_length_of_isSome {α β : Type} (f : α → Option β) (l : List α)
    (h : ∀ a ∈ l, (f a).isSome) : (l.filterMap f).length = l.length := by
  induction l with
  | nil => rfl
  | cons a rest ih =>
    have ha := h a (by simp)
    cases hfa : f a with
    | none => rw [hfa] at ha; simp at ha
    | some b =>
      simp only [List.filterMap_cons, hfa, List.length_cons]
      rw [ih (fun x hx => h x (by simp [hx]))]

/-- Claim C8: bulk import invokes the matching domain operation once per row,
in order, with missing columns replaced by empty-string/default values (the
per-row payload is `rowOp`, built from `row.get` fallbacks); a row whose
submission raises is skipped without aborting the batch, and the reported
count equals exactly the number of rows whose operation completed without
raising. -/
theorem prefill_from_csv_spec (now_iso db_type : String) (submit : J → Bool)
    (rows : List Row)
    (hdb : db_type = "applications" ∨ db_type = "networking" ∨ db_type = "interviews" ∨
      db_type = "followups") :
    (prefill_from_csv now_iso db_type submit rows).invoked =
      rows.filterMap (rowOp now_iso db_type) ∧
    (prefill_from_csv now_iso db_type submit rows).invoked.length = rows.length ∧
    (prefill_from_csv now_iso db_type submit rows).count =
      (rows.filter (rowSucceeds now_iso db_type submit)).length := by
  obtain ⟨h1, h2⟩ := prefill_foldl_spec now_iso db_type submit rows ⟨[], 0⟩
  have hinv : (prefill_from_csv now_iso db_type submit rows).invoked =
      rows.filterMap (rowOp now_iso db_type) := by
    unfold prefill_from_csv
    rw [h1]
    simp
  refine ⟨hinv, ?_, ?_⟩
  · rw [hinv]
    exact filterMap_length_of_isSome _ _
      (fun r _ => rowOp_isSome_of_valid now_iso db_type r hdb)
  · unfold prefill_from_csv
    rw [h2]
    simp

/-- The title text of the payload's first property ("Company" for an
application payload), used to pick out a row in the witness. -/
def companyTitleText : J → Option String
  | .obj (_ :: (_, .obj ((_, .obj ((_, .arr (.obj ((_, .obj ((_, .str s) :: _)) :: _) :: _)) :: _)) :: _)) :: _) =>
    some s
  | _ => none

/-- Witness for claim C8: three application rows where the second row's
submission raises report `count = 2` and three invocations. -/
theorem prefill_from_csv_spec_witness :
    (prefill_from_csv "n" "applications"
        (fun p => companyTitleText p != some "FailCo")
        [[("Company", "A")], [("Company", "FailCo")], [("Company", "B")]]).count = 2 ∧
    (prefill_from_csv "n" "applications"
        (fun p => companyTitleText p != some "FailCo")
        [[("Company", "A")], [("Company", "FailCo")], [("Company", "B")]]).invoked.length = 3 := by
  have h := prefill_from_csv_spec "n" "applications"
    (fun p => companyTitleText p != some "FailCo")
    [[("Company", "A")], [("Company", "FailCo")], [("Company", "B")]] (Or.inl rfl)
  refine ⟨?_, ?_⟩
  · rw [h.2.2]
    rfl
  · rw [h.2.1]
    rfl
